import Mathlib

/-!
Verification development for the Azur 650R serial command library
(`src/azur650/command.py`).  The Python code is shallowly embedded:
raw serial bytes are `String`s (the protocol is pure ASCII), response
records are `List String`, the state mirror is an explicit structure,
and the fallible paths (`IndexError` from tuple indexing, `ValueError`
from `int()`, the typed protocol errors) are `Except` values.
-/

namespace Azur650

/-! ## Frame codec

Models the string handling of `_cmd` (command.py lines 169-185):
composing the outgoing frame, and splitting the raw read into
de-duplicated records of comma-separated fields.
-/

/-- Python `str.split(sep)` on a list of characters: always returns at
least one (possibly empty) segment, and one extra segment per separator
occurrence. -/
def splitChar (sep : Char) : List Char → List (List Char)
  | [] => [[]]
  | c :: cs =>
    if c = sep then [] :: splitChar sep cs
    else
      match splitChar sep cs with
      | [] => [[c]]
      | seg :: segs => (c :: seg) :: segs

/-- Python `str.split(sep)` on a `String`. -/
def pySplit (s : String) (sep : Char) : List String :=
  (splitChar sep s.data).map (fun l => ⟨l⟩)

/-- Python `str.strip('\r')`: remove every leading and trailing
carriage return. -/
def pyStripCR (s : String) : String :=
  ⟨(((s.data.dropWhile (· = '\r')).reverse.dropWhile (· = '\r')).reverse)⟩

/-- De-duplication with a seen-accumulator, keeping first occurrences. -/
def pyDedupAux (seen : List String) : List String → List String
  | [] => []
  | x :: xs => if x ∈ seen then pyDedupAux seen xs else x :: pyDedupAux (x :: seen) xs

/-- Python `set(...)` over the split lines (command.py line 181).  A
Python set has no specified iteration order; the model fixes the
first-occurrence order, which no settled property depends on. -/
def pyDedup (l : List String) : List String := pyDedupAux [] l

/-- Outgoing frame composition (command.py lines 170-174):
`#<group>,<number>` with `,<data>` appended only when `command_data` is
truthy (in particular an empty string is omitted), then a trailing
carriage return.  Non-string payloads are `%s`-formatted by Python; the
model takes the already-formatted string. -/
def encode (grp num : String) (dat : Option String) : String :=
  let c := "#" ++ grp ++ "," ++ num
  let c :=
    match dat with
    | some s => if s ≠ "" then c ++ "," ++ s else c
    | none => c
  c ++ "\r"

/-- Per-line field extraction (command.py line 185):
`response[1:].split(',')` — drop the one-character marker, split the
rest on commas. -/
def recordFields (line : String) : List String :=
  pySplit ⟨line.data.drop 1⟩ ','

/-- The read-side split (command.py line 181):
`set(response.strip('\r').split('\r'))`. -/
def splitRead (raw : String) : List String :=
  pyDedup (pySplit (pyStripCR raw) '\r')

/-! ## Errors and the state mirror -/

/-- Everything `_cmd` can raise while processing a read: the three
typed protocol errors and the bare `ValueError` of lines 188-200, the
`ValueError` a failing `int()` raises inside `_parse_response`, and an
unhandled `IndexError` from indexing a too-short response tuple. -/
inductive CmdErr where
  | groupErr   -- CommandGroupError (KeyError subclass)
  | numberErr  -- CommandNumberError (KeyError subclass)
  | dataErr    -- CommandDataError (ValueError subclass)
  | invalidErr -- bare ValueError "Invalid command ... [unknown error]"
  | valueErr   -- ValueError raised by int() on a non-numeric field
  | indexErr   -- IndexError from tuple indexing
deriving DecidableEq

/-- The group-11 sub-code to exception mapping of command.py
lines 188-200. -/
def subcodeError (sub : String) : CmdErr :=
  if sub = "01" then .groupErr
  else if sub = "02" then .numberErr
  else if sub = "03" then .dataErr
  else .invalidErr

/-- The state mirror: the private registers initialised in `__init__`
(command.py lines 110-156).  The two per-input dictionaries are kept as
association lists; a key that is absent plays the role of a key mapped
to Python `None`. -/
structure DeviceState where
  power_state : Option Bool := none
  volume : Option Int := none
  bass : Option Int := none
  treble : Option Int := none
  subwoofer : Option Bool := none
  lfe_trim : Option Int := none
  mute_state : Option Bool := none
  dynamic_range : Option ℚ := none
  osd_on : Option Bool := none
  lip_sync : Option Int := none
  active_input : Option String := none
  audio_source_for_input : List (String × String) := []
  video_source_for_input : List (String × String) := []
  stereo_audio_mode : Option String := none
  signal_processing_mode : Option String := none
  signal_codec : Option String := none
  main_software_version : Option String := none
  protocol_version : Option String := none
deriving DecidableEq

/-- The freshly constructed mirror: every register unknown. -/
def DeviceState.init : DeviceState := {}

/-- Python dict assignment `m[k] = v` on an association list. -/
def setK (l : List (String × String)) (k v : String) : List (String × String) :=
  match l with
  | [] => [(k, v)]
  | (k2, v2) :: rest => if k2 = k then (k, v) :: rest else (k2, v2) :: setK rest k v

/-- Python dict lookup `m.get(k)` on an association list. -/
def lookupK (l : List (String × String)) (k : String) : Option String :=
  match l with
  | [] => none
  | (k2, v2) :: rest => if k2 = k then some v2 else lookupK rest k

/-- Python tuple indexing `r[i]` (non-negative `i`): an `IndexError`
when out of range. -/
def idx (r : List String) (i : Nat) : Except CmdErr String :=
  match r, i with
  | [], _ => .error .indexErr
  | s :: _, 0 => .ok s
  | _ :: rest, i2 + 1 => idx rest i2

/-- Decimal value of a digit string. -/
def natOfDigits (l : List Char) : Nat :=
  l.foldl (fun n c => n * 10 + (c.toNat - 48)) 0

/-- Python `int(s)` on a string: an optional minus sign followed by at
least one digit.  (Python also accepts surrounding whitespace and an
explicit `+` sign; device payloads use neither.) -/
def pyInt? (s : String) : Option Int :=
  match s.data with
  | [] => none
  | '-' :: rest =>
    if rest ≠ [] ∧ rest.all Char.isDigit then some (-(natOfDigits rest : Int)) else none
  | l => if l.all Char.isDigit then some (natOfDigits l : Int) else none

/-- Python `int(s)` as it is used inside `_parse_response`: a
`ValueError` on a non-numeric string. -/
def pyIntE (s : String) : Except CmdErr Int :=
  match pyInt? s with
  | some v => .ok v
  | none => .error .valueErr

instance {ε α : Type} [DecidableEq ε] [DecidableEq α] : DecidableEq (Except ε α) := fun x y =>
  match x, y with
  | .ok a, .ok b => if h : a = b then isTrue (by rw [h]) else isFalse (by simp [h])
  | .error a, .error b => if h : a = b then isTrue (by rw [h]) else isFalse (by simp [h])
  | .ok _, .error _ => isFalse (by simp)
  | .error _, .ok _ => isFalse (by simp)

@[simp] lemma except_pure_eq_ok {ε α : Type} (a : α) :
    (pure a : Except ε α) = Except.ok a := rfl

@[simp] lemma except_ok_bind {ε α β : Type} (a : α) (f : α → Except ε β) :
    (Except.ok a : Except ε α) >>= f = f a := rfl

@[simp] lemma except_error_bind {ε α β : Type} (e : ε) (f : α → Except ε β) :
    (Except.error e : Except ε α) >>= f = Except.error e := rfl

@[simp] lemma except_map_ok {ε α β : Type} (f : α → β) (a : α) :
    f <$> (Except.ok a : Except ε α) = Except.ok (f a) := rfl

@[simp] lemma except_map_error {ε α β : Type} (f : α → β) (e : ε) :
    f <$> (Except.error e : Except ε α) = Except.error e := rfl

/-! ## Response classifier / state-mirror update

`_parse_response` (command.py lines 208-301), translated branch by
branch: every Python `if` on the response tuple becomes a guarded
update, sequenced in source order.
-/

/-- The state-update rules of `_parse_response` (command.py
lines 208-301). -/
def parse_response (st0 : DeviceState) (r : List String) : Except CmdErr DeviceState := do
  let g ← idx r 0
  -- Amplifier commands (lines 217-258)
  let st ←
    (if g = "6" then do
      let n ← idx r 1
      let st := st0
      let st ←
        (if n = "01" then do
          let d ← idx r 2
          pure (if d = "0" then { st with power_state := some false }
                else if d = "1" then { st with power_state := some true }
                else st)
         else pure st)
      let st ←
        (if n = "02" ∨ n = "03" then do
          let d ← idx r 2
          let v ← pyIntE d
          pure { st with volume := some v }
         else pure st)
      let st ←
        (if n = "04" ∨ n = "05" then do
          let d ← idx r 2
          let v ← pyIntE d
          pure { st with bass := some v }
         else pure st)
      let st ←
        (if n = "06" ∨ n = "07" then do
          let d ← idx r 2
          let v ← pyIntE d
          pure { st with treble := some v }
         else pure st)
      let st :=
        (if n = "08" then { st with subwoofer := some true }
         else if n = "09" then { st with subwoofer := some false }
         else st)
      let st ←
        (if n = "10" then do
          let d ← idx r 2
          let v ← pyIntE d
          pure { st with lfe_trim := some (-1 * v) }
         else pure st)
      let st ←
        (if n = "11" then do
          let d ← idx r 2
          pure (if d = "1" then { st with mute_state := some true }
                else if d = "0" then { st with mute_state := some false }
                else st)
         else pure st)
      let st ←
        (if n = "12" then do
          let d ← idx r 2
          pure (if d = "0" then { st with dynamic_range := some 0 }
                else if d = "1" then { st with dynamic_range := some (1 / 4 : ℚ) }
                else if d = "2" then { st with dynamic_range := some (1 / 2 : ℚ) }
                else if d = "3" then { st with dynamic_range := some (3 / 4 : ℚ) }
                else if d = "4" then { st with dynamic_range := some 1 }
                else st)
         else pure st)
      let st := (if n = "13" then { st with osd_on := some true } else st)
      let st := (if n = "14" then { st with osd_on := some false } else st)
      let st ←
        (if n = "20" ∨ n = "21" then do
          let d ← idx r 2
          let v ← pyIntE d
          pure { st with lip_sync := some v }
         else pure st)
      pure st
     else pure st0)
  -- Source commands (lines 261-274)
  let st ←
    (if g = "7" then do
      let n ← idx r 1
      let st ←
        (if n = "01" then do
          let d ← idx r 2
          pure { st with active_input := some d }
         else pure st)
      let st ←
        (if n = "04" then
          match st.active_input with
          | some act => do
            let d ← idx r 2
            pure { st with audio_source_for_input := setK st.audio_source_for_input act d }
          | none => pure st
         else pure st)
      let st ←
        (if n = "05" then
          match st.active_input with
          | some act => do
            let d ← idx r 2
            pure { st with video_source_for_input := setK st.video_source_for_input act d }
          | none => pure st
         else pure st)
      pure st
     else pure st)
  -- Audio processing commands (lines 280-291)
  let st ←
    (if g = "9" then do
      let n ← idx r 1
      let st ←
        (if n = "01" then do
          let d ← idx r 2
          pure { st with stereo_audio_mode := some d }
         else pure st)
      let st ←
        (if n = "02" ∨ n = "04" then do
          let d ← idx r 2
          pure { st with signal_processing_mode := some d }
         else pure st)
      let st ←
        (if n = "03" ∨ n = "05" then do
          let d ← idx r 2
          pure { st with signal_codec := some d }
         else pure st)
      pure st
     else pure st)
  -- Version commands (lines 295-301)
  let st ←
    (if g = "10" then do
      let n ← idx r 1
      let st ←
        (if n = "01" then do
          let d ← idx r 2
          pure { st with main_software_version := some d }
         else pure st)
      let st ←
        (if n = "02" then do
          let d ← idx r 2
          pure { st with protocol_version := some d }
         else pure st)
      pure st
     else pure st)
  pure st

/-! ## Command dispatcher -/

/-- The per-record body of the `_cmd` loop (command.py lines 186-203):
group "11" records raise the typed error picked by the sub-code (an
`IndexError` when there is no sub-code field), every other record is
fed to `_parse_response`.  A processed record is returned together with
the updated mirror. -/
def classifyRecord (st : DeviceState) (r : List String) :
    Except CmdErr (DeviceState × List String) :=
  match idx r 0 with
  | .error e => .error e
  | .ok g =>
    if g = "11" then
      match idx r 1 with
      | .error e => .error e
      | .ok sub => .error (subcodeError sub)
    else
      match parse_response st r with
      | .ok st2 => .ok (st2, r)
      | .error e => .error e

/-- The `for response in responses` loop of `_cmd` (command.py
lines 182-203): records are processed in order, the first exception
aborts the remaining records, and the last processed record is what
`_cmd` returns (line 206). -/
def cmdProcess (st : DeviceState) (last : Option (List String)) :
    List String → Except CmdErr (DeviceState × Option (List String))
  | [] => .ok (st, last)
  | line :: rest =>
    match classifyRecord st (recordFields line) with
    | .error e => .error e
    | .ok (st2, r) => cmdProcess st2 (some r) rest

/-- The read-processing half of `_cmd` (command.py lines 177-206): split
the raw bytes into de-duplicated records and run the processing loop.
(The write half, `encode`, puts bytes on the wire and has no further
observable effect on this model.) -/
def cmd (st : DeviceState) (raw : String) :
    Except CmdErr (DeviceState × Option (List String)) :=
  cmdProcess st none (splitRead raw)

/-! ## Value convergence engine

`_set_value` (command.py lines 303-347).  The increment/decrement
callbacks are one device round trip each; the device is modelled as a
pair of transition functions on its current value (`none` models the
callback raising `CommandDataError`, e.g. at the floor of the range).
The callbacks' string results pass through Python `int()` in the loop;
the model takes them as integers directly.  Because the Python loop has
no a-priori bound, the model runs on fuel: `Outcome.diverge` marks fuel
exhaustion and stands for non-termination.
-/

/-- A simulated device: the value each callback returns (and leaves the
device at) as a function of the current value. -/
structure Dev where
  incF : Int → Option Int
  decF : Int → Option Int

/-- Observable trace of the callbacks: the device's actual value and
how many times each callback was invoked. -/
structure CbState where
  devVal : Int
  incCalls : Nat
  decCalls : Nat
deriving DecidableEq

/-- The exceptions `_set_value` can raise: the `TypeError` of
lines 312-317, the `ValueError` of lines 318-319, and a
`CommandDataError` escaping from a callback. -/
inductive SetErr where
  | typeErr
  | valueErr
  | cmdDataErr
deriving DecidableEq

/-- How a `_set_value` run ends: a Python return value (`ret none` is
the bare `return` of line 334, i.e. Python `None`), an exception, or
fuel exhaustion (the loop not terminating). -/
inductive Outcome where
  | ret (v : Option Int)
  | exc (e : SetErr)
  | diverge
deriving DecidableEq

/-- One `increment_callback()` round trip.  A raising call is still a
call: the counter advances either way. -/
def callInc (d : Dev) (s : CbState) : Option Int × CbState :=
  match d.incF s.devVal with
  | some v => (some v, { devVal := v, incCalls := s.incCalls + 1, decCalls := s.decCalls })
  | none => (none, { s with incCalls := s.incCalls + 1 })

/-- One `decrement_callback()` round trip. -/
def callDec (d : Dev) (s : CbState) : Option Int × CbState :=
  match d.decF s.devVal with
  | some v => (some v, { devVal := v, incCalls := s.incCalls, decCalls := s.decCalls + 1 })
  | none => (none, { s with decCalls := s.decCalls + 1 })

/-- The convergence loop of `_set_value` (command.py lines 336-347):
`while set_pointer != set_level`, with the pre-step overshoot check, a
single fixed `action` callback, and the final `return set_level` once
the loop is left. -/
def svLoop (d : Dev) (asc : Bool) (t : Int) : Nat → Int → CbState → Outcome × CbState
  | 0, _, s => (.diverge, s)
  | fuel + 1, p, s =>
    if p ≠ t then
      if (asc = true ∧ p < t) ∨ (asc = false ∧ t < p) then
        match (if asc then callInc d s else callDec d s) with
        | (none, s2) => (.exc .cmdDataErr, s2)
        | (some p2, s2) => svLoop d asc t fuel p2 s2
      else (.ret (some t), s)
    else (.ret (some t), s)

/-- The values `set_level` can arrive as: a (Python 2 `int`/`long`)
integer, or a string fed through `int()`. -/
inductive PyVal where
  | vInt (i : Int)
  | vStr (s : String)

/-- The sanity-check coercion of command.py lines 312-317: integers
pass through, strings go through `int()`, whose `ValueError` is caught
and re-raised as a `TypeError`. -/
def coerceLevel : PyVal → Except SetErr Int
  | .vInt i => .ok i
  | .vStr s =>
    match pyInt? s with
    | some i => .ok i
    | none => .error .typeErr

/-- `_set_value` (command.py lines 303-347): validation, the probe for
an unknown current value (`decrement_callback`, falling back to
`increment_callback` when the former raises `CommandDataError`),
direction selection, the bare `return` when the pointer already equals
the target, and the convergence loop. -/
def set_value (d : Dev) (fuel : Nat) (lvl : PyVal) (ptr : Option Int)
    (mn mx : Int) (s0 : CbState) : Outcome × CbState :=
  match coerceLevel lvl with
  | .error e => (.exc e, s0)
  | .ok set_level =>
    if set_level > mx ∨ set_level < mn then (.exc .valueErr, s0)
    else
      match
        (match ptr with
         | some p => (some p, s0)
         | none =>
           match callDec d s0 with
           | (some p, s1) => (some p, s1)
           | (none, s1) =>
             -- CommandDataError caught (line 324); probe upward instead
             callInc d s1) with
      | (none, s1) => (.exc .cmdDataErr, s1)
      | (some set_pointer, s1) =>
        if set_level < set_pointer then svLoop d false set_level fuel set_pointer s1
        else if set_level > set_pointer then svLoop d true set_level fuel set_pointer s1
        else (.ret none, s1)

/-- The value one loop iteration moves the pointer to, in the ascending
direction (total under the hypothesis that the callback succeeds). -/
def ascStep (d : Dev) (v : Int) : Int := (d.incF v).getD v

/-- Descending counterpart of `ascStep`. -/
def descStep (d : Dev) (v : Int) : Int := (d.decF v).getD v

/-- A simulated device moving in steps of one. -/
def demoDev : Dev := ⟨fun v => some (v + 1), fun v => some (v - 1)⟩

/-- A simulated device moving in steps of two, exhibiting overshoot on
odd targets. -/
def stepTwoDev : Dev := ⟨fun v => some (v + 2), fun v => some (v - 2)⟩

/-! ## Helper lemmas -/

/-- The fixed table of (group, number) pairs that have a state effect in
`_parse_response`; every other non-"11" pair is a silent no-op. -/
def updateTable : List (String × String) :=
  [("6", "01"), ("6", "02"), ("6", "03"), ("6", "04"), ("6", "05"), ("6", "06"),
   ("6", "07"), ("6", "08"), ("6", "09"), ("6", "10"), ("6", "11"), ("6", "12"),
   ("6", "13"), ("6", "14"), ("6", "20"), ("6", "21"),
   ("7", "01"), ("7", "04"), ("7", "05"),
   ("9", "01"), ("9", "02"), ("9", "03"), ("9", "04"), ("9", "05"),
   ("10", "01"), ("10", "02")]

lemma lookupK_setK_self (l : List (String × String)) (k v : String) :
    lookupK (setK l k v) k = some v := by
  induction l with
  | nil => simp [setK, lookupK]
  | cons hd rest ih =>
    obtain ⟨k2, v2⟩ := hd
    by_cases hk : k2 = k
    · simp [setK, lookupK, hk]
    · simp [setK, lookupK, hk, ih]

lemma cmdProcess_append (pre : List String) :
    ∀ (st : DeviceState) (last : Option (List String)) (st' : DeviceState)
      (last' : Option (List String)),
      cmdProcess st last pre = .ok (st', last') →
      ∀ xs, cmdProcess st last (pre ++ xs) = cmdProcess st' last' xs := by
  induction pre with
  | nil =>
    intro st last st' last' h xs
    simp only [cmdProcess] at h
    obtain ⟨h1, h2⟩ := Prod.mk.injEq .. ▸ Except.ok.inj h
    simp [h1, h2]
  | cons line rest ih =>
    intro st last st' last' h xs
    simp only [cmdProcess, List.cons_append] at h ⊢
    cases hc : classifyRecord st (recordFields line) with
    | error e => rw [hc] at h; exact absurd h (by simp)
    | ok pr =>
      obtain ⟨st2, r⟩ := pr
      rw [hc] at h
      exact ih st2 (some r) st' last' h xs

lemma parse_response_noop (st : DeviceState) (g n : String) (rest : List String)
    (htab : (g, n) ∉ updateTable) :
    parse_response st (g :: n :: rest) = .ok st := by
  have h0 : idx (g :: n :: rest) 0 = .ok g := rfl
  have h1 : idx (g :: n :: rest) 1 = .ok n := rfl
  by_cases hg6 : g = "6"
  · subst hg6
    have e01 : n ≠ "01" := fun h => htab (by rw [h]; decide)
    have e02 : n ≠ "02" := fun h => htab (by rw [h]; decide)
    have e03 : n ≠ "03" := fun h => htab (by rw [h]; decide)
    have e04 : n ≠ "04" := fun h => htab (by rw [h]; decide)
    have e05 : n ≠ "05" := fun h => htab (by rw [h]; decide)
    have e06 : n ≠ "06" := fun h => htab (by rw [h]; decide)
    have e07 : n ≠ "07" := fun h => htab (by rw [h]; decide)
    have e08 : n ≠ "08" := fun h => htab (by rw [h]; decide)
    have e09 : n ≠ "09" := fun h => htab (by rw [h]; decide)
    have e10 : n ≠ "10" := fun h => htab (by rw [h]; decide)
    have e11 : n ≠ "11" := fun h => htab (by rw [h]; decide)
    have e12 : n ≠ "12" := fun h => htab (by rw [h]; decide)
    have e13 : n ≠ "13" := fun h => htab (by rw [h]; decide)
    have e14 : n ≠ "14" := fun h => htab (by rw [h]; decide)
    have e20 : n ≠ "20" := fun h => htab (by rw [h]; decide)
    have e21 : n ≠ "21" := fun h => htab (by rw [h]; decide)
    simp [parse_response, h0, h1, e01, e02, e03, e04, e05, e06, e07, e08, e09,
      e10, e11, e12, e13, e14, e20, e21]
  by_cases hg7 : g = "7"
  · subst hg7
    have e01 : n ≠ "01" := fun h => htab (by rw [h]; decide)
    have e04 : n ≠ "04" := fun h => htab (by rw [h]; decide)
    have e05 : n ≠ "05" := fun h => htab (by rw [h]; decide)
    simp [parse_response, h0, h1, e01, e04, e05]
  by_cases hg9 : g = "9"
  · subst hg9
    have e01 : n ≠ "01" := fun h => htab (by rw [h]; decide)
    have e02 : n ≠ "02" := fun h => htab (by rw [h]; decide)
    have e03 : n ≠ "03" := fun h => htab (by rw [h]; decide)
    have e04 : n ≠ "04" := fun h => htab (by rw [h]; decide)
    have e05 : n ≠ "05" := fun h => htab (by rw [h]; decide)
    simp [parse_response, h0, h1, e01, e02, e03, e04, e05]
  by_cases hg10 : g = "10"
  · subst hg10
    have e01 : n ≠ "01" := fun h => htab (by rw [h]; decide)
    have e02 : n ≠ "02" := fun h => htab (by rw [h]; decide)
    simp [parse_response, h0, h1, e01, e02]
  simp [parse_response, h0, hg6, hg7, hg9, hg10]

lemma svLoop_true_exit (d : Dev) (t : Int) (fuel : Nat) (p : Int) (s : CbState)
    (h : t ≤ p) : svLoop d true t (fuel + 1) p s = (.ret (some t), s) := by
  by_cases hp : p = t
  · simp [svLoop, hp]
  · have h1 : ¬ p < t := by omega
    simp [svLoop, hp, h1]

lemma svLoop_false_exit (d : Dev) (t : Int) (fuel : Nat) (p : Int) (s : CbState)
    (h : p ≤ t) : svLoop d false t (fuel + 1) p s = (.ret (some t), s) := by
  by_cases hp : p = t
  · simp [svLoop, hp]
  · have h1 : ¬ t < p := by omega
    simp [svLoop, hp, h1]

lemma svLoop_true_step (d : Dev) (t : Int) (fuel : Nat) (p : Int) (ic dc : Nat)
    (hpt : p < t) (w : Int) (hw : d.incF p = some w) :
    svLoop d true t (fuel + 1) p ⟨p, ic, dc⟩ = svLoop d true t fuel w ⟨w, ic + 1, dc⟩ := by
  have hne : p ≠ t := by omega
  simp [svLoop, hne, hpt, callInc, hw]

lemma svLoop_false_step (d : Dev) (t : Int) (fuel : Nat) (p : Int) (ic dc : Nat)
    (hpt : t < p) (w : Int) (hw : d.decF p = some w) :
    svLoop d false t (fuel + 1) p ⟨p, ic, dc⟩ = svLoop d false t fuel w ⟨w, ic, dc + 1⟩ := by
  have hne : p ≠ t := by omega
  simp [svLoop, hne, hpt, callDec, hw]

lemma svLoop_true_reaches (d : Dev) (t : Int)
    (hInc : ∀ v, ∃ w, d.incF v = some w ∧ v < w) :
    ∀ (k : Nat) (p : Int) (ic dc : Nat), p < t → (t - p).toNat ≤ k + 1 →
      ∃ n, 0 < n ∧
        svLoop d true t (k + 2) p ⟨p, ic, dc⟩ =
          (.ret (some t), ⟨(ascStep d)^[n] p, ic + n, dc⟩) ∧
        (∀ m < n, (ascStep d)^[m] p < t) ∧ t ≤ (ascStep d)^[n] p := by
  intro k
  induction k with
  | zero =>
    intro p ic dc hpt hfuel
    obtain ⟨w, hw, hpw⟩ := hInc p
    have hstep : ascStep d p = w := by simp [ascStep, hw]
    have htw : t ≤ w := by omega
    refine ⟨1, Nat.one_pos, ?_, ?_, ?_⟩
    · rw [show (0 + 2 : Nat) = 1 + 1 from rfl, svLoop_true_step d t 1 p ic dc hpt w hw,
        svLoop_true_exit d t 0 w _ htw]
      simp [hstep]
    · intro m hm
      have hm0 : m = 0 := by omega
      subst hm0
      simpa using hpt
    · simpa [hstep] using htw
  | succ k ih =>
    intro p ic dc hpt hfuel
    obtain ⟨w, hw, hpw⟩ := hInc p
    have hstep : ascStep d p = w := by simp [ascStep, hw]
    by_cases htw : t ≤ w
    · refine ⟨1, Nat.one_pos, ?_, ?_, ?_⟩
      · rw [show k + 1 + 2 = (k + 2) + 1 from rfl,
          svLoop_true_step d t (k + 2) p ic dc hpt w hw,
          svLoop_true_exit d t (k + 1) w _ htw]
        simp [hstep]
      · intro m hm
        have hm0 : m = 0 := by omega
        subst hm0
        simpa using hpt
      · simpa [hstep] using htw
    · push_neg at htw
      have hfuel2 : (t - w).toNat ≤ k + 1 := by omega
      obtain ⟨n, hn, heq, hbef, haft⟩ := ih w (ic + 1) dc htw hfuel2
      refine ⟨n + 1, Nat.succ_pos n, ?_, ?_, ?_⟩
      · rw [show k + 1 + 2 = (k + 2) + 1 from rfl,
          svLoop_true_step d t (k + 2) p ic dc hpt w hw, heq,
          show (ascStep d)^[n] w = (ascStep d)^[n + 1] p from by
            rw [Function.iterate_succ_apply, hstep],
          show ic + 1 + n = ic + (n + 1) from by omega]
      · intro m hm
        cases m with
        | zero => simpa using hpt
        | succ m2 =>
          rw [Function.iterate_succ_apply, hstep]
          exact hbef m2 (by omega)
      · rw [Function.iterate_succ_apply, hstep]
        exact haft

lemma svLoop_false_reaches (d : Dev) (t : Int)
    (hDec : ∀ v, ∃ w, d.decF v = some w ∧ w < v) :
    ∀ (k : Nat) (p : Int) (ic dc : Nat), t < p → (p - t).toNat ≤ k + 1 →
      ∃ n, 0 < n ∧
        svLoop d false t (k + 2) p ⟨p, ic, dc⟩ =
          (.ret (some t), ⟨(descStep d)^[n] p, ic, dc + n⟩) ∧
        (∀ m < n, t < (descStep d)^[m] p) ∧ (descStep d)^[n] p ≤ t := by
  intro k
  induction k with
  | zero =>
    intro p ic dc hpt hfuel
    obtain ⟨w, hw, hpw⟩ := hDec p
    have hstep : descStep d p = w := by simp [descStep, hw]
    have htw : w ≤ t := by omega
    refine ⟨1, Nat.one_pos, ?_, ?_, ?_⟩
    · rw [show (0 + 2 : Nat) = 1 + 1 from rfl, svLoop_false_step d t 1 p ic dc hpt w hw,
        svLoop_false_exit d t 0 w _ htw]
      simp [hstep]
    · intro m hm
      have hm0 : m = 0 := by omega
      subst hm0
      simpa using hpt
    · simpa [hstep] using htw
  | succ k ih =>
    intro p ic dc hpt hfuel
    obtain ⟨w, hw, hpw⟩ := hDec p
    have hstep : descStep d p = w := by simp [descStep, hw]
    by_cases htw : w ≤ t
    · refine ⟨1, Nat.one_pos, ?_, ?_, ?_⟩
      · rw [show k + 1 + 2 = (k + 2) + 1 from rfl,
          svLoop_false_step d t (k + 2) p ic dc hpt w hw,
          svLoop_false_exit d t (k + 1) w _ htw]
        simp [hstep]
      · intro m hm
        have hm0 : m = 0 := by omega
        subst hm0
        simpa using hpt
      · simpa [hstep] using htw
    · push_neg at htw
      have hfuel2 : (w - t).toNat ≤ k + 1 := by omega
      obtain ⟨n, hn, heq, hbef, haft⟩ := ih w ic (dc + 1) htw hfuel2
      refine ⟨n + 1, Nat.succ_pos n, ?_, ?_, ?_⟩
      · rw [show k + 1 + 2 = (k + 2) + 1 from rfl,
          svLoop_false_step d t (k + 2) p ic dc hpt w hw, heq,
          show (descStep d)^[n] w = (descStep d)^[n + 1] p from by
            rw [Function.iterate_succ_apply, hstep],
          show dc + 1 + n = dc + (n + 1) from by omega]
      · intro m hm
        cases m with
        | zero => simpa using hpt
        | succ m2 =>
          rw [Function.iterate_succ_apply, hstep]
          exact hbef m2 (by omega)
      · rw [Function.iterate_succ_apply, hstep]
        exact haft

lemma strData_append (a b : String) : (a ++ b).data = a.data ++ b.data := rfl

lemma dropWhileCR_of_not_mem (l : List Char) (h : '\r' ∉ l) :
    l.dropWhile (· = '\r') = l := by
  cases l with
  | nil => rfl
  | cons c cs =>
    have hc : ¬ (c = '\r') := fun hc2 => h (by simp [hc2])
    simp [List.dropWhile_cons, hc]

lemma pyStripCR_append_cr (core : List Char) (h : '\r' ∉ core) :
    pyStripCR ⟨core ++ ['\r']⟩ = ⟨core⟩ := by
  cases core with
  | nil => rfl
  | cons c cs =>
    have hc : ¬ (c = '\r') := fun hc2 => h (by simp [hc2])
    have hrev : '\r' ∉ (cs.reverse ++ [c]) := by
      simp only [List.mem_append, List.mem_reverse, List.mem_singleton]
      rintro (h2 | h2)
      · exact h (List.mem_cons_of_mem c h2)
      · exact hc h2.symm
    unfold pyStripCR
    simp [List.dropWhile_cons, hc, dropWhileCR_of_not_mem _ hrev]

lemma splitChar_of_not_mem (sep : Char) (l : List Char) (h : sep ∉ l) :
    splitChar sep l = [l] := by
  induction l with
  | nil => rfl
  | cons c cs ih =>
    have hc : ¬ (c = sep) := fun h2 => h (by simp [h2])
    have ih2 := ih (fun h2 => h (List.mem_cons_of_mem c h2))
    simp [splitChar, hc, ih2]

lemma splitChar_append (sep : Char) (a rest : List Char) (h : sep ∉ a) :
    splitChar sep (a ++ sep :: rest) = a :: splitChar sep rest := by
  induction a with
  | nil => simp [splitChar]
  | cons c cs ih =>
    have hc : ¬ (c = sep) := fun h2 => h (by simp [h2])
    have ih2 := ih (fun h2 => h (List.mem_cons_of_mem c h2))
    simp [splitChar, hc, ih2]

lemma pyDedup_single (x : String) : pyDedup [x] = [x] := by
  simp [pyDedup, pyDedupAux]

/-! ## Claim theorems -/

/-- Claim C1.  The code-level behaviour at the claim's scenario: with a
known pointer equal to the target, `_set_value` makes zero callback
invocations (the call counters stay at 0 and the device value is
untouched), but it executes the bare `return` of line 334 and so
returns Python `None` — not the target value the claim (and the
`set_volume` docstring) promises. -/
theorem setValue_idempotent_bare_return :
    set_value demoDev 5 (.vInt (-20)) (some (-20)) (-90) 0 ⟨-20, 0, 0⟩ =
      (.ret none, ⟨-20, 0, 0⟩) ∧
    Outcome.ret none ≠ Outcome.ret (some (-20)) := by
  decide

/-- Claim C2, counterexample.  On a device stepping by two, driving the
value from 0 towards target 3 returns `some 3` — the requested target —
while the last value actually observed from the device (its final
value) is 4.  So `_set_value` does not return the final observed value,
and the device is left past the target, not at the closest reachable
value below it. -/
theorem setValue_returns_target_not_observed_cex :
    set_value stepTwoDev 10 (.vInt 3) (some 0) (-10) 10 ⟨0, 0, 0⟩ =
      (.ret (some 3), ⟨4, 2, 0⟩) ∧ (3 : Int) ≠ 4 := by
  decide

/-- Claim C2, amended.  When convergence runs (a known pointer strictly
below/above an in-range integer target) against callbacks that move
strictly towards the target, `_set_value` terminates and returns the
requested target itself, while the device is left at the first value
reached at or past the target in the approach direction — which can
differ from the returned target when the step granularity skips it. -/
theorem setValue_returns_target_first_passage (d : Dev) (t p mn mx : Int)
    (ic dc : Nat) (hmn : mn ≤ t) (hmx : t ≤ mx) :
    ((∀ v, ∃ w, d.incF v = some w ∧ v < w) → p < t →
      ∃ fuel n, 0 < n ∧
        set_value d fuel (.vInt t) (some p) mn mx ⟨p, ic, dc⟩ =
          (.ret (some t), ⟨(ascStep d)^[n] p, ic + n, dc⟩) ∧
        (∀ m < n, (ascStep d)^[m] p < t) ∧ t ≤ (ascStep d)^[n] p) ∧
    ((∀ v, ∃ w, d.decF v = some w ∧ w < v) → t < p →
      ∃ fuel n, 0 < n ∧
        set_value d fuel (.vInt t) (some p) mn mx ⟨p, ic, dc⟩ =
          (.ret (some t), ⟨(descStep d)^[n] p, ic, dc + n⟩) ∧
        (∀ m < n, t < (descStep d)^[m] p) ∧ (descStep d)^[n] p ≤ t) := by
  have hvr : ¬ (t > mx ∨ t < mn) := by omega
  constructor
  · intro hInc hpt
    obtain ⟨n, hn, heq, hbef, haft⟩ :=
      svLoop_true_reaches d t hInc ((t - p).toNat - 1) p ic dc hpt (by omega)
    refine ⟨(t - p).toNat - 1 + 2, n, hn, ?_, hbef, haft⟩
    have h1 : ¬ t < p := by omega
    simp only [set_value, coerceLevel]
    rw [if_neg hvr, if_neg h1, if_pos hpt]
    exact heq
  · intro hDec hpt
    obtain ⟨n, hn, heq, hbef, haft⟩ :=
      svLoop_false_reaches d t hDec ((p - t).toNat - 1) p ic dc hpt (by omega)
    refine ⟨(p - t).toNat - 1 + 2, n, hn, ?_, hbef, haft⟩
    simp only [set_value, coerceLevel]
    rw [if_neg hvr, if_pos hpt]
    exact heq

/-- Claim C2, witness for the amended theorem at the step-two device,
target 3 from pointer 0. -/
theorem setValue_returns_target_first_passage_witness :
    ((-10 : Int) ≤ 3) ∧ ((3 : Int) ≤ 10) ∧
    (∀ v : Int, ∃ w, stepTwoDev.incF v = some w ∧ v < w) ∧ ((0 : Int) < 3) ∧
    (∃ fuel n, 0 < n ∧
      set_value stepTwoDev fuel (.vInt 3) (some 0) (-10) 10 ⟨0, 0, 0⟩ =
        (.ret (some 3), ⟨(ascStep stepTwoDev)^[n] 0, 0 + n, 0⟩) ∧
      (∀ m < n, (ascStep stepTwoDev)^[m] 0 < 3) ∧ 3 ≤ (ascStep stepTwoDev)^[n] 0) :=
  ⟨by norm_num, by norm_num, fun v => ⟨v + 2, rfl, by omega⟩, by norm_num,
    (setValue_returns_target_first_passage stepTwoDev 3 0 (-10) 10 0 0
        (by norm_num) (by norm_num)).1
      (fun v => ⟨v + 2, rfl, by omega⟩) (by norm_num)⟩

/-- Claim C3.  If every record before `errLine` in processing order is
processed without an exception and `errLine` parses to a group-"11"
record with a sub-code, then `_cmd` raises exactly the typed error the
sub-code selects, and the result does not depend on the records after
`errLine` (they are never classified and never touch the mirror): the
right-hand side is independent of `post`. -/
theorem cmd_first_error_wins (st st2 : DeviceState) (last2 : Option (List String))
    (pre post : List String) (errLine sub : String) (rest : List String)
    (hpre : cmdProcess st none pre = .ok (st2, last2))
    (hfields : recordFields errLine = "11" :: sub :: rest) :
    cmdProcess st none (pre ++ errLine :: post) = .error (subcodeError sub) := by
  rw [cmdProcess_append pre st none st2 last2 hpre]
  simp only [cmdProcess]
  rw [hfields]
  rfl

/-- Claim C3, witness: a read carrying a volume record, then an
unknown-number error record, then another volume record. -/
theorem cmd_first_error_wins_witness :
    cmdProcess DeviceState.init none ["#6,02,-20"] =
      .ok ({ DeviceState.init with volume := some (-20) }, some ["6", "02", "-20"]) ∧
    recordFields "#11,02" = "11" :: "02" :: [] ∧
    cmdProcess DeviceState.init none (["#6,02,-20"] ++ "#11,02" :: ["#6,03,-5"]) =
      .error (subcodeError "02") :=
  ⟨by decide, by decide,
    cmd_first_error_wins DeviceState.init
      { DeviceState.init with volume := some (-20) } (some ["6", "02", "-20"])
      ["#6,02,-20"] ["#6,03,-5"] "#11,02" "02" [] (by decide) (by decide)⟩

/-- Claim C4.  When the target fails integer coercion, or coerces to a
value outside `[mn, mx]`, `_set_value` raises a `TypeError` or a
`ValueError` and the callback trace `s0` is returned untouched: no
increment or decrement call happens, so no device round trip and no
state-mirror effect. -/
theorem setValue_validation_before_io (d : Dev) (fuel : Nat) (lvl : PyVal)
    (ptr : Option Int) (mn mx : Int) (s0 : CbState)
    (h : coerceLevel lvl = .error .typeErr ∨
         ∃ v, coerceLevel lvl = .ok v ∧ (v > mx ∨ v < mn)) :
    ∃ e, set_value d fuel lvl ptr mn mx s0 = (.exc e, s0) ∧
      (e = .typeErr ∨ e = .valueErr) := by
  rcases h with h | ⟨v, hok, hrange⟩
  · exact ⟨.typeErr, by simp [set_value, h], Or.inl rfl⟩
  · exact ⟨.valueErr, by simp [set_value, hok, hrange], Or.inr rfl⟩

/-- Claim C4, witness: the non-numeric target "abc". -/
theorem setValue_validation_before_io_witness :
    (coerceLevel (.vStr "abc") = .error .typeErr ∨
      ∃ v, coerceLevel (.vStr "abc") = .ok v ∧ (v > 10 ∨ v < 0)) ∧
    ∃ e, set_value demoDev 3 (.vStr "abc") none 0 10 ⟨0, 0, 0⟩ = (.exc e, ⟨0, 0, 0⟩) ∧
      (e = .typeErr ∨ e = .valueErr) :=
  ⟨Or.inl (by decide),
    setValue_validation_before_io demoDev 3 (.vStr "abc") none 0 10 ⟨0, 0, 0⟩
      (Or.inl (by decide))⟩

/-- Claim C5.  The concrete state-update rules: `("6","02","-20")` sets
the volume to -20 and nothing else; `("7","01","03")` then
`("7","04","01")` make "03" the active input and record audio source
"01" for it (visible through a lookup); and `("7","04","01")` against a
mirror that never saw an active input leaves the whole mirror — in
particular both per-input maps — untouched. -/
theorem parse_response_state_updates (st : DeviceState)
    (hst : st.active_input = none) :
    parse_response st ["6", "02", "-20"] = .ok { st with volume := some (-20) } ∧
    parse_response st ["7", "01", "03"] = .ok { st with active_input := some "03" } ∧
    parse_response { st with active_input := some "03" } ["7", "04", "01"] =
      .ok { st with active_input := some "03",
                    audio_source_for_input := setK st.audio_source_for_input "03" "01" } ∧
    lookupK (setK st.audio_source_for_input "03" "01") "03" = some "01" ∧
    parse_response st ["7", "04", "01"] = .ok st := by
  refine ⟨rfl, rfl, rfl, lookupK_setK_self _ _ _, ?_⟩
  simp [parse_response, idx, hst]

/-- Claim C5, witness at the freshly constructed mirror. -/
theorem parse_response_state_updates_witness :
    DeviceState.init.active_input = none ∧
    (parse_response DeviceState.init ["6", "02", "-20"] =
        .ok { DeviceState.init with volume := some (-20) } ∧
      parse_response DeviceState.init ["7", "01", "03"] =
        .ok { DeviceState.init with active_input := some "03" } ∧
      parse_response { DeviceState.init with active_input := some "03" } ["7", "04", "01"] =
        .ok { DeviceState.init with
              active_input := some "03",
              audio_source_for_input :=
                setK DeviceState.init.audio_source_for_input "03" "01" } ∧
      lookupK (setK DeviceState.init.audio_source_for_input "03" "01") "03" = some "01" ∧
      parse_response DeviceState.init ["7", "04", "01"] = .ok DeviceState.init) :=
  ⟨rfl, parse_response_state_updates DeviceState.init rfl⟩

/-- Claim C6.  A record with at least two fields whose group is not
"11" and whose (group, number) pair is outside the fixed update table
is accepted: classification raises nothing and returns the mirror
bit-for-bit unchanged. -/
theorem classifyRecord_unknown_pair_noop (st : DeviceState) (g n : String)
    (rest : List String) (hg : g ≠ "11") (htab : (g, n) ∉ updateTable) :
    classifyRecord st (g :: n :: rest) = .ok (st, g :: n :: rest) := by
  have hp := parse_response_noop st g n rest htab
  simp [classifyRecord, idx, hg, hp]

/-- Claim C6, witness: the unmodelled tuner group "8". -/
theorem classifyRecord_unknown_pair_noop_witness :
    (("8" : String) ≠ "11") ∧ (("8", "01") ∉ updateTable) ∧
    classifyRecord DeviceState.init ["8", "01", "100"] =
      .ok (DeviceState.init, ["8", "01", "100"]) :=
  ⟨by decide, by decide,
    classifyRecord_unknown_pair_noop DeviceState.init "8" "01" ["100"]
      (by decide) (by decide)⟩

/-- Claim C7, counterexample.  A data payload containing a comma breaks
the round trip: encoding ("6", "02", "1,2") and splitting the echo
yields four fields, not the original three. -/
theorem encode_split_roundtrip_cex :
    (splitRead (encode "6" "02" (some "1,2"))).map recordFields ≠
      [["6", "02", "1,2"]] := by
  decide

/-- Claim C7, amended.  The round trip holds for every (group, number,
data) whose fields contain neither a comma nor a carriage return and
whose data is nonempty (a falsy empty payload is omitted from the frame
altogether): encode, strip, split on carriage return, de-duplicate,
strip the marker and split on commas reconstructs exactly the three
original fields. -/
theorem encode_split_roundtrip (g n dat : String)
    (hgc : ',' ∉ g.data) (hgr : '\r' ∉ g.data)
    (hnc : ',' ∉ n.data) (hnr : '\r' ∉ n.data)
    (hdc : ',' ∉ dat.data) (hdr : '\r' ∉ dat.data) (hne : dat.data ≠ []) :
    (splitRead (encode g n (some dat))).map recordFields = [[g, n, dat]] := by
  have hne2 : dat ≠ "" := fun h => hne (by rw [h])
  have hdata : (encode g n (some dat)).data =
      ('#' :: (g.data ++ ',' :: (n.data ++ ',' :: dat.data))) ++ ['\r'] := by
    simp only [encode]
    rw [if_pos hne2]
    simp [strData_append, show "#".data = ['#'] from rfl,
      show ",".data = [','] from rfl, show "\r".data = ['\r'] from rfl]
  have henc : encode g n (some dat) =
      ⟨('#' :: (g.data ++ ',' :: (n.data ++ ',' :: dat.data))) ++ ['\r']⟩ := by
    cases hs : encode g n (some dat) with
    | mk l => rw [hs] at hdata; exact congrArg String.mk hdata
  have hcr : '\r' ∉ '#' :: (g.data ++ ',' :: (n.data ++ ',' :: dat.data)) := by
    simp only [List.mem_cons, List.mem_append]
    rintro (h | h | h | h | h | h)
    · exact absurd h (by decide)
    · exact hgr h
    · exact absurd h (by decide)
    · exact hnr h
    · exact absurd h (by decide)
    · exact hdr h
  rw [henc]
  unfold splitRead pySplit
  rw [pyStripCR_append_cr _ hcr]
  rw [show (⟨'#' :: (g.data ++ ',' :: (n.data ++ ',' :: dat.data))⟩ : String).data =
      '#' :: (g.data ++ ',' :: (n.data ++ ',' :: dat.data)) from rfl]
  rw [splitChar_of_not_mem _ _ hcr]
  simp only [List.map_cons, List.map_nil]
  rw [pyDedup_single]
  simp only [List.map_cons, List.map_nil]
  unfold recordFields pySplit
  rw [show (⟨'#' :: (g.data ++ ',' :: (n.data ++ ',' :: dat.data))⟩ : String).data.drop 1 =
      g.data ++ ',' :: (n.data ++ ',' :: dat.data) from rfl]
  rw [splitChar_append _ _ _ hgc, splitChar_append _ _ _ hnc,
    splitChar_of_not_mem _ _ hdc]
  rfl

/-- Claim C7, witness: the fields ("6", "02", "-20"). -/
theorem encode_split_roundtrip_witness :
    (',' ∉ "6".data ∧ '\r' ∉ "6".data ∧ ',' ∉ "02".data ∧ '\r' ∉ "02".data ∧
      ',' ∉ "-20".data ∧ '\r' ∉ "-20".data ∧ "-20".data ≠ []) ∧
    (splitRead (encode "6" "02" (some "-20"))).map recordFields = [["6", "02", "-20"]] :=
  ⟨⟨by decide, by decide, by decide, by decide, by decide, by decide, by decide⟩,
    encode_split_roundtrip "6" "02" "-20" (by decide) (by decide) (by decide)
      (by decide) (by decide) (by decide) (by decide)⟩

/-- Claim C8, counterexample.  Splitting an empty read does not yield
zero records: Python's `''.strip('\r').split('\r')` is `['']`, so
exactly one (degenerate, empty) record comes out. -/
theorem splitRead_empty_cex : splitRead "" ≠ [] ∧ (splitRead "").length = 1 := by
  decide

/-- Claim C8, amended.  An empty transport read raises nothing: the
split yields exactly one empty record, whose fields `("",)` match
neither the group-11 check nor any update rule, so the mirror comes
back unchanged (and that empty record is what the loop leaves behind as
the last processed response). -/
theorem cmd_empty_read_noop (st : DeviceState) :
    cmd st "" = .ok (st, some [""]) ∧ splitRead "" = [""] :=
  ⟨rfl, rfl⟩

/-- Claim C10.  A read whose only record strips to the single field
("11",) — group 11 with no sub-code — makes `_cmd` raise an unhandled
`IndexError` at the `response[1]` access: not one of the typed protocol
errors (which only `subcodeError` produces) and not a silent no-op. -/
theorem cmd_short_error_record_index_error (st : DeviceState) :
    cmd st "#11\r" = .error .indexErr ∧
    ∀ sub : String, subcodeError sub ≠ .indexErr := by
  refine ⟨rfl, fun sub => ?_⟩
  unfold subcodeError
  split_ifs <;> simp

/-- Claim C9.  Under the claim's hypothesis — each increment strictly
raises the pointer, each decrement strictly lowers it — the convergence
loop terminates for some fuel: ascending from below the target it stops
exactly at the first iterate that reaches or passes the target (all
earlier iterates are strictly below it) and never calls the decrement
callback; symmetrically for descending. -/
theorem svLoop_terminates_first_passage (d : Dev) (t p : Int) (ic dc : Nat) :
    ((∀ v, ∃ w, d.incF v = some w ∧ v < w) → p < t →
      ∃ fuel n, 0 < n ∧
        svLoop d true t fuel p ⟨p, ic, dc⟩ =
          (.ret (some t), ⟨(ascStep d)^[n] p, ic + n, dc⟩) ∧
        (∀ m < n, (ascStep d)^[m] p < t) ∧ t ≤ (ascStep d)^[n] p) ∧
    ((∀ v, ∃ w, d.decF v = some w ∧ w < v) → t < p →
      ∃ fuel n, 0 < n ∧
        svLoop d false t fuel p ⟨p, ic, dc⟩ =
          (.ret (some t), ⟨(descStep d)^[n] p, ic, dc + n⟩) ∧
        (∀ m < n, t < (descStep d)^[m] p) ∧ (descStep d)^[n] p ≤ t) := by
  constructor
  · intro hInc hpt
    obtain ⟨n, hn, heq, hb, ha⟩ :=
      svLoop_true_reaches d t hInc ((t - p).toNat - 1) p ic dc hpt (by omega)
    exact ⟨(t - p).toNat - 1 + 2, n, hn, heq, hb, ha⟩
  · intro hDec hpt
    obtain ⟨n, hn, heq, hb, ha⟩ :=
      svLoop_false_reaches d t hDec ((p - t).toNat - 1) p ic dc hpt (by omega)
    exact ⟨(p - t).toNat - 1 + 2, n, hn, heq, hb, ha⟩

/-- Claim C9, witness: the unit-step device climbing from 0 to 2. -/
theorem svLoop_terminates_first_passage_witness :
    (∀ v : Int, ∃ w, demoDev.incF v = some w ∧ v < w) ∧ ((0 : Int) < 2) ∧
    (∃ fuel n, 0 < n ∧
      svLoop demoDev true 2 fuel 0 ⟨0, 0, 0⟩ =
        (.ret (some 2), ⟨(ascStep demoDev)^[n] 0, 0 + n, 0⟩) ∧
      (∀ m < n, (ascStep demoDev)^[m] 0 < 2) ∧ 2 ≤ (ascStep demoDev)^[n] 0) :=
  ⟨fun v => ⟨v + 1, rfl, by omega⟩, by norm_num,
    (svLoop_terminates_first_passage demoDev 2 0 0 0).1
      (fun v => ⟨v + 1, rfl, by omega⟩) (by norm_num)⟩

end Azur650
